import Mathlib

/-!
Verification model of the SQLitey wrapper (src/sqlight/__init__.py).

The Python module is embedded shallowly:

* `Sql` mirrors the `Sql` class: the instance attribute `_is_templated`,
  the stored `_query_loader` callable and the `_store` kwargs dictionary
  (whose only keys ever used are `template_path` and `filename`).
* `Db` mirrors the part of the `Db` class relevant to query handling: the
  configured `_sql_templates_dir`.  The sqlite3 engine itself is out of
  scope; executing a statement is modelled as delivering the resolved SQL
  text to the engine, and template files are modelled by a read function
  `fs : String → Path → String` giving the stripped text of
  `(template_path / filename)`.
* Attribute access on the handle and on the `_SafeCursor` proxy is
  modelled explicitly for the interception claims.
* The `functools.lru_cache` on `_read_sql_template` is modelled as an
  LRU association list with the decorator's default capacity of 128.

Python truthiness notes built into the model: `pathlib.Path` values are
always truthy, `None` is falsy, hence `bool(self._store.get("template_path"))`
is `Option.isSome` of the stored directory.
-/

namespace Sqlight

/-- Filesystem paths (`pathlib.Path`) are modelled as strings. -/
abbrev Path := String

/-- `DbPathConfig`: database filepath plus optional sql-templates directory. -/
structure DbPathConfig where
  database : Path
  sql_templates_dir : Option Path
deriving DecidableEq, Repr

/-- The `_query_loader` callable stored by `Sql.__init__`.  `Sql.raw` stores a
lambda returning a fixed string; `Sql.template` stores `_read_sql_template`;
direct instantiation can store any object (the repository test passes the
non-callable `...`), represented by `notCallable`. -/
inductive QueryLoader where
  | constStr (query : String)
  | readTemplate
  | notCallable
deriving DecidableEq, Repr

/-- The `_store` kwargs dictionary of an `Sql` instance.  `Sql.raw` leaves it
empty; `Sql.template` stores `template_path` (possibly `None`) and
`filename`. -/
structure Store where
  template_path : Option Path
  filename : Option String
deriving DecidableEq, Repr

/-- The empty kwargs dictionary. -/
def Store.empty : Store := { template_path := none, filename := none }

/-- An `Sql` instance: `_is_templated` class/instance attribute, the stored
loader and the `_store` dictionary. -/
structure Sql where
  _is_templated : Bool
  _query_loader : QueryLoader
  _store : Store
deriving DecidableEq, Repr

/-- Errors surfaced by the modelled operations.  `noTemplatePath` is the
`ValueError("No template path configured")` of `Sql.load_query`;
`forbiddenAccess` is the `AttributeError` raised by `_SafeCursor.__getattr__`
for the hooked methods; `attributeError` is an ordinary missing-attribute
`AttributeError`; `typeError` models calling a non-callable loader. -/
inductive SqlError where
  | noTemplatePath
  | forbiddenAccess (name : String)
  | attributeError (name : String)
  | typeError
deriving DecidableEq, Repr

/-- `Sql.__init__(self, query_loader, **kwargs)`: stores its arguments and
returns normally.  The source has no instantiation guard, so construction is
a total function. -/
def Sql.init (query_loader : QueryLoader) (kwargs : Store) : Sql :=
  { _is_templated := false, _query_loader := query_loader, _store := kwargs }

/-- `Sql.has_template_path`: `bool(self._is_templated and
self._store.get("template_path"))`. -/
def Sql.has_template_path (s : Sql) : Bool :=
  s._is_templated && s._store.template_path.isSome

/-- `Sql.set_template_path`: assigns `self._store["template_path"]` whenever
the instance is templated, and does nothing otherwise. -/
def Sql.set_template_path (s : Sql) (template_path : Path) : Sql :=
  if s._is_templated then
    { s with _store := { s._store with template_path := some template_path } }
  else s

/-- `Sql.load_query`: raises `ValueError` when templated without a template
path, otherwise calls `self._query_loader(**self._store)`.  The template
read `_read_sql_template(filename, template_path)` is abstracted by `fs`. -/
def Sql.load_query (fs : String → Path → String) (s : Sql) : Except SqlError String :=
  if s._is_templated && !s.has_template_path then
    .error .noTemplatePath
  else
    match s._query_loader with
    | .constStr q => .ok q
    | .readTemplate =>
        match s._store.filename, s._store.template_path with
        | some f, some p => .ok (fs f p)
        | _, _ => .error .typeError
    | .notCallable => .error .typeError

/-- `Sql.raw(query)`: stores a lambda that returns `query`, empty kwargs. -/
def Sql.raw (query : String) : Sql :=
  Sql.init (.constStr query) Store.empty

/-- `Sql.template(filename, path=None)`: stores `_read_sql_template` with
kwargs `template_path=path, filename=filename`, then sets the instance
attribute `_is_templated = True`. -/
def Sql.template (filename : String) (path : Option Path) : Sql :=
  let cls_ := Sql.init .readTemplate { template_path := path, filename := some filename }
  { cls_ with _is_templated := true }

/-- The `Db` handle state relevant to query resolution: the configured
default sql-templates directory. -/
structure Db where
  _sql_templates_dir : Option Path
deriving DecidableEq, Repr

/-- `Db._pre_execute_hook`: `if not sql.has_template_path and
self._sql_templates_dir: sql.set_template_path(self._sql_templates_dir)`.
The Python call mutates `sql` in place; the model returns the updated
value. -/
def Db._pre_execute_hook (db : Db) (sql : Sql) : Sql :=
  match db._sql_templates_dir with
  | some d => if sql.has_template_path then sql else sql.set_template_path d
  | none => sql

/-- `Db.execute` as observed by a caller: `Db.__getattribute__` wraps the
method so that `_pre_execute_hook` runs first, then the body sends
`sql.load_query()` to `cursor._safe_cursor.execute`.  The model returns the
(possibly mutated) `Sql` object together with the text delivered to the
engine; rows coming back from sqlite3 are outside the model. -/
def Db.execute (fs : String → Path → String) (db : Db) (sql : Sql) :
    Sql × Except SqlError String :=
  let sql_ := db._pre_execute_hook sql
  (sql_, sql_.load_query fs)

/-- `Db.executemany`, wrapped by `__getattribute__` exactly like
`Db.execute`; the parameter sequences are forwarded to the engine and not
modelled. -/
def Db.executemany (fs : String → Path → String) (db : Db) (sql : Sql) :
    Sql × Except SqlError String :=
  let sql_ := db._pre_execute_hook sql
  (sql_, sql_.load_query fs)

/-- `Db.executescript`, wrapped by `__getattribute__` exactly like
`Db.execute`. -/
def Db.executescript (fs : String → Path → String) (db : Db) (sql : Sql) :
    Sql × Except SqlError String :=
  let sql_ := db._pre_execute_hook sql
  (sql_, sql_.load_query fs)

/-- `Db.fetchone`: calls `self.execute(sql, *args)` (which goes through the
`__getattribute__` wrapper) and then `.fetchone()` on the live cursor; the
row pulled from the engine is outside the model. -/
def Db.fetchone (fs : String → Path → String) (db : Db) (sql : Sql) :
    Sql × Except SqlError String :=
  Db.execute fs db sql

/-- `Db.fetchall`: calls `self.execute(sql, *args)` and then `.fetchall()`;
the rows pulled from the engine are outside the model. -/
def Db.fetchall (fs : String → Path → String) (db : Db) (sql : Sql) :
    Sql × Except SqlError String :=
  Db.execute fs db sql

/-- `Db.commit`: calls `self.execute(sql, *args)` and then
`self.conn.commit()`; the transaction commit is outside the model. -/
def Db.commit (fs : String → Path → String) (db : Db) (sql : Sql) :
    Sql × Except SqlError String :=
  Db.execute fs db sql

end Sqlight

namespace Sqlight

/-- Helper: the pre-execute hook leaves a query that already has a template
path untouched. -/
theorem hook_noop_of_has_template_path (db : Db) (sql : Sql)
    (h : sql.has_template_path = true) : db._pre_execute_hook sql = sql := by
  unfold Db._pre_execute_hook
  cases db._sql_templates_dir <;> simp [h]

/-- Helper: the pre-execute hook never changes an already-present stored
template path. -/
theorem hook_preserves_some (db : Db) (sql : Sql) (p : Path)
    (h : sql._store.template_path = some p) :
    (db._pre_execute_hook sql)._store.template_path = some p := by
  unfold Db._pre_execute_hook
  cases hd : db._sql_templates_dir with
  | none => exact h
  | some d =>
      by_cases ht : sql.has_template_path = true
      · simp [ht, h]
      · simp only [Bool.not_eq_true] at ht
        have hnt : sql._is_templated = false := by
          unfold Sql.has_template_path at ht
          cases hb : sql._is_templated
          · rfl
          · rw [hb, h] at ht; simp at ht
        simp [ht, Sql.set_template_path, hnt, h]

/-- Helper: on a templated query with no stored path, a handle configured
with directory `d` injects `d`. -/
theorem hook_injects_of_absent (sql : Sql) (d : Path)
    (ht : sql._is_templated = true) (hp : sql._store.template_path = none) :
    ((Db.mk (some d))._pre_execute_hook sql)._store.template_path = some d := by
  unfold Db._pre_execute_hook Sql.has_template_path
  simp [ht, hp, Sql.set_template_path]

/-- Claim C5: resolving a Literal Query built by `Sql.raw` from any string
`s` (including the empty string and strings with SQL special characters)
succeeds and returns exactly `s`, whatever the template filesystem holds. -/
theorem raw_load_query_eq (fs : String → Path → String) (s : String) :
    (Sql.raw s).load_query fs = .ok s := rfl

/-- Claim C2: resolving a Templated Query whose directory was neither
supplied at construction nor injected later fails with the
missing-template-directory error, and resolving a Literal Query or a
Templated Query with a directory set never raises that error. -/
theorem load_query_missing_dir (fs : String → Path → String) (s : Sql) :
    (s._is_templated = true → s._store.template_path = none →
      s.load_query fs = .error .noTemplatePath)
    ∧ ((s._is_templated = false ∨ s._store.template_path.isSome) →
      s.load_query fs ≠ .error .noTemplatePath) := by
  constructor
  · intro ht hp
    simp [Sql.load_query, Sql.has_template_path, ht, hp]
  · intro h
    rcases h with h | h
    · cases hl : s._query_loader
      all_goals simp [Sql.load_query, Sql.has_template_path, h, hl]
      cases s._store.filename
      all_goals cases s._store.template_path
      all_goals simp
    · rcases hp : s._store.template_path with _ | p
      · rw [hp] at h; simp at h
      · cases hl : s._query_loader
        all_goals cases hb : s._is_templated
        all_goals simp [Sql.load_query, Sql.has_template_path, hb, hp, hl]
        all_goals cases s._store.filename
        all_goals simp

/-- Witness for claim C2 at concrete queries. -/
theorem load_query_missing_dir_witness :
    (Sql.template "t.sql" none).load_query (fun _ _ => "SELECT 1;")
        = .error .noTemplatePath
    ∧ (Sql.raw "SELECT 1;").load_query (fun _ _ => "SELECT 1;")
        ≠ .error .noTemplatePath :=
  ⟨(load_query_missing_dir _ _).1 rfl rfl,
   (load_query_missing_dir _ _).2 (Or.inl rfl)⟩

/-- Claim C8 (code evaluated at the failing input): calling the `Sql`
constructor directly with a non-callable argument, as the repository test
does with `Sql(...)`, is accepted by `Sql.__init__` and yields an ordinary
instance — no rejection of any kind occurs. -/
theorem sql_direct_instantiation_succeeds :
    Sql.init .notCallable Store.empty =
      { _is_templated := false, _query_loader := .notCallable,
        _store := Store.empty } := rfl

/-- Claim C6 counterexample: `set_template_path` on a Templated Query whose
directory is already set does not leave the existing directory unchanged —
it overwrites it with the new value. -/
theorem set_template_path_overwrites :
    ((Sql.template "q.sql" (some "d1")).set_template_path "d2")._store.template_path
      ≠ some "d1" := by decide

/-- Claim C6 amended: `set_template_path` is a no-op for every
non-templated (Literal) Query; for every Templated Query — with or without
an existing directory — it sets the stored directory to its argument,
overwriting any existing one.  The if-absent guard lives in the handle's
pre-execute hook, not in `set_template_path`. -/
theorem set_template_path_spec (s : Sql) (p : Path) :
    (s._is_templated = false → s.set_template_path p = s)
    ∧ (s._is_templated = true →
        (s.set_template_path p)._store.template_path = some p) := by
  constructor
  · intro h; simp [Sql.set_template_path, h]
  · intro h; simp [Sql.set_template_path, h]

/-- Witness for claim C6's amended theorem at concrete queries. -/
theorem set_template_path_spec_witness :
    (Sql.raw "SELECT 1;").set_template_path "d" = Sql.raw "SELECT 1;"
    ∧ ((Sql.template "f.sql" none).set_template_path "d")._store.template_path
        = some "d" :=
  ⟨(set_template_path_spec _ _).1 rfl, (set_template_path_spec _ _).2 rfl⟩

/-- Claim C1: every execute-family operation (execute, executemany,
executescript, and fetchone/fetchall/commit which delegate to execute)
first runs the pre-execute hook and resolves the hooked query; the hook
sets a Templated Query's absent directory to the handle's configured
default, and never changes a directory that is already present. -/
theorem pre_execute_hook_injection (fs : String → Path → String) (db : Db) (sql : Sql) :
    (Db.execute fs db sql
        = (db._pre_execute_hook sql, (db._pre_execute_hook sql).load_query fs)
      ∧ Db.executemany fs db sql = Db.execute fs db sql
      ∧ Db.executescript fs db sql = Db.execute fs db sql
      ∧ Db.fetchone fs db sql = Db.execute fs db sql
      ∧ Db.fetchall fs db sql = Db.execute fs db sql
      ∧ Db.commit fs db sql = Db.execute fs db sql)
    ∧ (∀ d, sql._is_templated = true → sql._store.template_path = none →
        db._sql_templates_dir = some d →
        (db._pre_execute_hook sql)._store.template_path = some d)
    ∧ (∀ p, sql._store.template_path = some p →
        (db._pre_execute_hook sql)._store.template_path = some p) := by
  refine ⟨⟨rfl, rfl, rfl, rfl, rfl, rfl⟩, ?_, ?_⟩
  · intro d ht hp hd
    cases db with
    | mk dir => cases hd; exact hook_injects_of_absent sql d ht hp
  · intro p hp
    exact hook_preserves_some db sql p hp

/-- Witness for claim C1: a handle with default directory injects it into a
deferred Templated Query, and never overrides an explicit directory. -/
theorem pre_execute_hook_injection_witness :
    ((Db.mk (some "cfgdir"))._pre_execute_hook
        (Sql.template "f.sql" none))._store.template_path = some "cfgdir"
    ∧ ((Db.mk (some "cfgdir"))._pre_execute_hook
        (Sql.template "f.sql" (some "mine")))._store.template_path = some "mine" :=
  ⟨(pre_execute_hook_injection (fun _ _ => "") (Db.mk (some "cfgdir"))
      (Sql.template "f.sql" none)).2.1 "cfgdir" rfl rfl rfl,
   (pre_execute_hook_injection (fun _ _ => "") (Db.mk (some "cfgdir"))
      (Sql.template "f.sql" (some "mine"))).2.2 "mine" rfl⟩

/-- Claim C10: once a Templated Query's directory is set, every
execute-family call on every handle leaves the query unchanged; in
particular a deferred query executed on a handle with default directory
`d1` acquires `d1`, and executing it later on any other handle keeps
`d1`. -/
theorem directory_sticks_once_set (fs : String → Path → String) :
    (∀ (db : Db) (sql : Sql), sql.has_template_path = true →
       (Db.execute fs db sql).1 = sql ∧ (Db.executemany fs db sql).1 = sql
       ∧ (Db.executescript fs db sql).1 = sql ∧ (Db.fetchone fs db sql).1 = sql
       ∧ (Db.fetchall fs db sql).1 = sql ∧ (Db.commit fs db sql).1 = sql)
    ∧ (∀ (d1 : Path) (db2 : Db) (filename : String),
        ((Db.execute fs (Db.mk (some d1)) (Sql.template filename none)).1)._store.template_path
          = some d1
        ∧ (Db.execute fs db2
            (Db.execute fs (Db.mk (some d1)) (Sql.template filename none)).1).1
          = (Db.execute fs (Db.mk (some d1)) (Sql.template filename none)).1) := by
  constructor
  · intro db sql h
    have he : (Db.execute fs db sql).1 = sql := by
      show db._pre_execute_hook sql = sql
      exact hook_noop_of_has_template_path db sql h
    exact ⟨he, he, he, he, he, he⟩
  · intro d1 db2 filename
    have h1 : (Db.execute fs (Db.mk (some d1)) (Sql.template filename none)).1
        = (Sql.template filename none).set_template_path d1 := by
      show (Db.mk (some d1))._pre_execute_hook (Sql.template filename none)
          = (Sql.template filename none).set_template_path d1
      unfold Db._pre_execute_hook
      simp [Sql.has_template_path, Sql.template, Sql.init]
    refine ⟨?_, ?_⟩
    · rw [h1]; simp [Sql.set_template_path, Sql.template, Sql.init]
    · rw [h1]
      show db2._pre_execute_hook _ = _
      apply hook_noop_of_has_template_path
      simp [Sql.set_template_path, Sql.template, Sql.init, Sql.has_template_path]

/-- Witness for claim C10 at concrete handles and queries. -/
theorem directory_sticks_once_set_witness :
    ((Db.execute (fun _ _ => "SELECT 1;") (Db.mk (some "a"))
        (Sql.template "f.sql" none)).1)._store.template_path = some "a"
    ∧ (Db.execute (fun _ _ => "SELECT 1;") (Db.mk (some "b"))
        (Db.execute (fun _ _ => "SELECT 1;") (Db.mk (some "a"))
          (Sql.template "f.sql" none)).1).1
      = (Db.execute (fun _ _ => "SELECT 1;") (Db.mk (some "a"))
          (Sql.template "f.sql" none)).1 :=
  (directory_sticks_once_set (fun _ _ => "SELECT 1;")).2 "a" (Db.mk (some "b")) "f.sql"

end Sqlight

namespace Sqlight

/-- The execute-family method names intercepted by the wrapper
(`_HOOKED_METHODS` in the source). -/
def _HOOKED_METHODS : List String := ["execute", "executemany", "executescript"]

/-- Observable events of the interception model: the pre-execute hook
running, and a raw sqlite3 execute-family entry point running. -/
inductive Event where
  | hookRun
  | rawExec
deriving DecidableEq, Repr

/-- The objects reachable from a `Db` handle: the handle itself, the
`_SafeCursor` proxy stored in `self.cursor`, the raw sqlite3 cursor it
wraps, and the raw sqlite3 connection stored in `self.conn`. -/
inductive Node where
  | handle
  | safeCursor
  | rawCursor
  | rawConn
deriving DecidableEq, Repr

/-- The result of one attribute access: another object, a callable whose
invocation emits the listed events, or an inert inspection value. -/
inductive Attr where
  | obj (o : Node)
  | callable (events : List Event)
  | value
deriving DecidableEq, Repr

/-- Attributes of the raw sqlite3 cursor as far as this model needs them:
its three execute-family entry points run SQL directly with no hook; its
DB-API `connection` attribute is a backreference to the owning raw
connection; its other DB-API inspection attributes (rowcount, lastrowid,
description, fetch methods, ...) neither run new SQL nor lead back to a
raw object and are modelled as inert values. -/
def rawCursorAttr (name : String) : Except SqlError Attr :=
  if name ∈ _HOOKED_METHODS then .ok (.callable [.rawExec])
  else if name = "connection" then .ok (.obj .rawConn)
  else if name ∈ ["rowcount", "lastrowid", "description", "arraysize",
                  "fetchone", "fetchall", "fetchmany", "close"] then .ok .value
  else .error (.attributeError name)

/-- Attributes of the raw sqlite3 connection: its execute-family shortcut
methods run SQL directly with no hook, `cursor` hands out a raw cursor. -/
def rawConnAttr (name : String) : Except SqlError Attr :=
  if name ∈ _HOOKED_METHODS then .ok (.callable [.rawExec])
  else if name = "cursor" then .ok (.obj .rawCursor)
  else if name ∈ ["commit", "rollback", "close"] then .ok .value
  else .error (.attributeError name)

/-- `_SafeCursor` attribute access: `_safe_cursor` is an instance attribute
found by normal lookup before `__getattr__` runs; `__getattr__` raises for
the hooked names and forwards every other access to the wrapped raw
cursor via `getattr`. -/
def safeCursorAttr (name : String) : Except SqlError Attr :=
  if name = "_safe_cursor" then .ok (.obj .rawCursor)
  else if name ∈ _HOOKED_METHODS then .error (.forbiddenAccess name)
  else rawCursorAttr name

/-- `Db` attribute access through `Db.__getattribute__`: the hooked method
names come back wrapped so that invoking them runs `_pre_execute_hook`
before the raw execute; `fetchone`, `fetchall` and `commit` call the
wrapped `self.execute`, so invoking them also runs the hook first;
`cursor` is the `_SafeCursor` proxy and `conn` the raw connection. -/
def dbAttr (name : String) : Except SqlError Attr :=
  if name ∈ _HOOKED_METHODS then .ok (.callable [.hookRun, .rawExec])
  else if name ∈ ["fetchone", "fetchall", "commit"] then
    .ok (.callable [.hookRun, .rawExec])
  else if name = "cursor" then .ok (.obj .safeCursor)
  else if name = "conn" then .ok (.obj .rawConn)
  else if name = "_pre_execute_hook" then .ok (.callable [.hookRun])
  else if name = "_sql_templates_dir" then .ok .value
  else .error (.attributeError name)

/-- Attribute access dispatched on the accessed object. -/
def attrOf : Node → String → Except SqlError Attr
  | .handle, n => dbAttr n
  | .safeCursor, n => safeCursorAttr n
  | .rawCursor, n => rawCursorAttr n
  | .rawConn, n => rawConnAttr n

/-- Follow a chain of attribute names starting at a node: intermediate
names must resolve to objects; the final name may resolve to anything. -/
def deref : Node → List String → Except SqlError Attr
  | n, [] => .ok (.obj n)
  | n, a :: rest =>
      match attrOf n a, rest with
      | .error e, _ => .error e
      | .ok (.obj m), _ => deref m rest
      | .ok t, [] => .ok t
      | .ok _, _ :: _ => .error (.attributeError a)

/-- `guardedEvents seen evs` holds when every raw execute in `evs` is
preceded by a hook run (`seen` records whether one already happened). -/
def guardedEvents : Bool → List Event → Bool
  | _, [] => true
  | _, .hookRun :: rest => guardedEvents true rest
  | seen, .rawExec :: rest => seen && guardedEvents seen rest

/-- Claim C3: accessing any execute-family name on the `_SafeCursor` proxy
raises the explicit forbidden-access error, while any other attribute of
the underlying cursor is forwarded to it unchanged. -/
theorem safe_cursor_blocks_execute (name : String) :
    (name ∈ _HOOKED_METHODS →
      safeCursorAttr name = .error (.forbiddenAccess name))
    ∧ (name ∉ _HOOKED_METHODS → name ≠ "_safe_cursor" →
      safeCursorAttr name = rawCursorAttr name) := by
  constructor
  · intro h
    have hne : name ≠ "_safe_cursor" := by
      intro he; rw [he] at h; simp [_HOOKED_METHODS] at h
    simp [safeCursorAttr, hne, h]
  · intro h hne
    simp [safeCursorAttr, hne, h]

/-- Witness for claim C3 at the concrete names of the repository test:
`execute` is blocked, `rowcount` is forwarded. -/
theorem safe_cursor_blocks_execute_witness :
    safeCursorAttr "execute" = .error (.forbiddenAccess "execute")
    ∧ safeCursorAttr "rowcount" = rawCursorAttr "rowcount" :=
  ⟨(safe_cursor_blocks_execute "execute").1 (by decide),
   (safe_cursor_blocks_execute "rowcount").2 (by decide) (by decide)⟩

/-- Claim C4 counterexample: the handle exposes the raw connection as its
`conn` attribute, so the chain handle.conn.execute reaches a raw
execute-family entry point whose invocation runs no hook at all; the same
raw connection is also reachable through the exposed cursor proxy via the
raw cursor's DB-API `connection` backreference,
handle.cursor.connection.execute. -/
theorem raw_execute_reachable_without_hook :
    deref .handle ["conn", "execute"] = .ok (.callable [.rawExec])
    ∧ deref .handle ["cursor", "connection", "execute"]
        = .ok (.callable [.rawExec])
    ∧ guardedEvents false [.rawExec] = false := ⟨rfl, rfl, rfl⟩

end Sqlight

namespace Sqlight

/-- Helper: from the `_SafeCursor` proxy, avoiding its private
`_safe_cursor` attribute and the forwarded raw cursor's `connection`
backreference, no attribute chain reaches a callable at all: the hooked
names raise, and the remaining forwarded inspection attributes are inert
values. -/
theorem safeCursor_no_callable (rest : List String) (evs : List Event)
    (hsc : "_safe_cursor" ∉ rest) (hcn : "connection" ∉ rest)
    (h : deref .safeCursor rest = .ok (.callable evs)) : False := by
  cases rest with
  | nil => simp [deref] at h
  | cons b r =>
    simp only [List.mem_cons, not_or] at hsc hcn
    obtain ⟨hb, _⟩ := hsc
    obtain ⟨hc, _⟩ := hcn
    have hb2 : b ≠ "_safe_cursor" := fun he => hb he.symm
    have hc2 : b ≠ "connection" := fun he => hc he.symm
    by_cases h1 : b ∈ _HOOKED_METHODS
    · simp [deref, attrOf, safeCursorAttr, hb2, h1] at h
    · have h1a : ¬(b = "execute" ∨ b = "executemany" ∨ b = "executescript") := by
        simpa [_HOOKED_METHODS] using h1
      by_cases h2 : b = "rowcount" ∨ b = "lastrowid" ∨ b = "description"
          ∨ b = "arraysize" ∨ b = "fetchone" ∨ b = "fetchall"
          ∨ b = "fetchmany" ∨ b = "close"
      · cases r with
        | nil =>
            simp [deref, attrOf, safeCursorAttr, rawCursorAttr, _HOOKED_METHODS,
              hb2, hc2, h1a, h2] at h
        | cons c r2 =>
            simp [deref, attrOf, safeCursorAttr, rawCursorAttr, _HOOKED_METHODS,
              hb2, hc2, h1a, h2] at h
      · simp [deref, attrOf, safeCursorAttr, rawCursorAttr, _HOOKED_METHODS,
          hb2, hc2, h1a, h2] at h

/-- Claim C4 amended: apart from the three exposed raw-object escape
hatches (the handle's `conn` attribute, the proxy's wrapped
`_safe_cursor`, and the raw cursor's DB-API `connection` backreference
that the proxy forwards), every attribute chain from the handle that
reaches a callable reaches one whose raw execute-family invocations are
all preceded by the directory-injection hook. -/
theorem guarded_paths_hook_first (path : List String) (evs : List Event)
    (hconn : "conn" ∉ path) (hsc : "_safe_cursor" ∉ path)
    (hcn : "connection" ∉ path)
    (h : deref .handle path = .ok (.callable evs)) :
    guardedEvents false evs = true := by
  cases path with
  | nil => simp [deref] at h
  | cons a rest =>
    simp only [List.mem_cons, not_or] at hconn hsc hcn
    obtain ⟨hca, hcr⟩ := hconn
    obtain ⟨hsa, hsr⟩ := hsc
    obtain ⟨hna, hnr⟩ := hcn
    have hca2 : a ≠ "conn" := fun he => hca he.symm
    by_cases h1 : a ∈ _HOOKED_METHODS
    · cases rest with
      | nil =>
          simp [deref, attrOf, dbAttr, h1] at h
          rw [← h]; rfl
      | cons b r => simp [deref, attrOf, dbAttr, h1] at h
    · by_cases h2 : a ∈ ["fetchone", "fetchall", "commit"]
      · cases rest with
        | nil =>
            simp [deref, attrOf, dbAttr, h1, h2] at h
            rw [← h]; rfl
        | cons b r => simp [deref, attrOf, dbAttr, h1, h2] at h
      · by_cases h3 : a = "cursor"
        · have hx : deref .safeCursor rest = .ok (.callable evs) := by
            simpa [deref, attrOf, dbAttr, _HOOKED_METHODS, h3] using h
          exact (safeCursor_no_callable rest evs hsr hnr hx).elim
        · by_cases h4 : a = "_pre_execute_hook"
          · cases rest with
            | nil =>
                simp [deref, attrOf, dbAttr, _HOOKED_METHODS, h4] at h
                rw [← h]; rfl
            | cons b r =>
                simp [deref, attrOf, dbAttr, _HOOKED_METHODS, h4] at h
          · by_cases h5 : a = "_sql_templates_dir"
            · cases rest with
              | nil =>
                  simp [deref, attrOf, dbAttr, _HOOKED_METHODS, h5] at h
              | cons b r =>
                  simp [deref, attrOf, dbAttr, _HOOKED_METHODS, h5] at h
            · simp [deref, attrOf, dbAttr, h1, h2, h3, hca2, h4, h5] at h

/-- Witness for claim C4's amended theorem: the chain consisting of the
single name execute, which avoids all three escape hatches, yields the
wrapped method whose events are hook-then-execute, and those events are
guarded. -/
theorem guarded_paths_hook_first_witness :
    guardedEvents false [Event.hookRun, Event.rawExec] = true :=
  guarded_paths_hook_first ["execute"] [Event.hookRun, Event.rawExec]
    (by decide) (by decide) (by decide) rfl

end Sqlight

namespace Sqlight

/-- Cache key of the memoised `_read_sql_template(filename, template_path)`:
its two positional arguments. -/
abbrev TemplateKey := String × Path

/-- `functools.lru_cache` applied bare (no arguments) keeps its default
`maxsize` of 128. -/
def _lru_maxsize : Nat := 128

/-- The memo state of the decorated function: entries listed most recently
used first. -/
abbrev TemplateCache := List (TemplateKey × String)

/-- Outcome of one memoised read: the text returned, the new memo state,
and whether storage was actually read. -/
structure ReadOutcome where
  text : String
  cache : TemplateCache
  readStorage : Bool
deriving Repr

/-- `_read_sql_template` together with its `lru_cache` wrapper: a hit
returns the memoised text and refreshes the entry's recency without
touching storage; a miss reads `(template_path / filename)` from storage
(abstracted by `fs`, the stripped file contents), memoises the result, and
drops the least recently used entry when capacity 128 is exceeded. -/
def read_sql_template (fs : String → Path → String) (c : TemplateCache)
    (filename : String) (template_path : Path) : ReadOutcome :=
  match c.lookup (filename, template_path) with
  | some v =>
      ⟨v, ((filename, template_path), v)
            :: c.filter (fun e => e.1 != (filename, template_path)), false⟩
  | none =>
      let v := fs filename template_path
      ⟨v, (((filename, template_path), v) :: c).take _lru_maxsize, true⟩

/-- Resolve a whole list of template keys in order, threading the memo. -/
def runTrace (fs : String → Path → String) (c : TemplateCache) :
    List TemplateKey → TemplateCache
  | [] => c
  | k :: ks => runTrace fs (read_sql_template fs c k.1 k.2).cache ks

/-- Cache invariant: every memoised entry holds exactly the storage text of
its key, and the size stays within the lru capacity. -/
def cacheWF (fs : String → Path → String) (c : TemplateCache) : Prop :=
  (∀ e ∈ c, e.2 = fs e.1.1 e.1.2) ∧ c.length ≤ _lru_maxsize

/-- Helper: a successful lookup points at an entry of the list. -/
theorem template_lookup_mem : ∀ (c : TemplateCache) (k : TemplateKey) (v : String),
    c.lookup k = some v → (k, v) ∈ c := by
  intro c k v h
  induction c with
  | nil => simp [List.lookup] at h
  | cons e t ih =>
      obtain ⟨k1, v1⟩ := e
      by_cases hk : k = k1
      · have hb : (k == k1) = true := by simp [hk]
        simp [List.lookup, hb] at h
        simp [hk, h]
      · have hb : (k == k1) = false := by simp [hk]
        simp [List.lookup, hb] at h
        exact List.mem_cons_of_mem _ (ih h)

/-- Helper: a key already present in the map makes `lookup` succeed. -/
theorem template_lookup_isSome : ∀ (c : TemplateCache) (k : TemplateKey),
    k ∈ c.map Prod.fst → (c.lookup k).isSome := by
  intro c k h
  induction c with
  | nil => simp at h
  | cons e t ih =>
      obtain ⟨k1, v1⟩ := e
      by_cases hk : k = k1
      · have hb : (k == k1) = true := by simp [hk]
        simp [List.lookup, hb]
      · have hb : (k == k1) = false := by simp [hk]
        simp only [List.map_cons, List.mem_cons] at h
        have h2 : k ∈ List.map Prod.fst t := by
          rcases h with h | h
          · exact absurd h hk
          · exact h
        simp only [List.lookup, hb]
        exact ih h2

/-- Helper: removing a present key strictly shrinks the list. -/
theorem filter_length_of_lookup : ∀ (c : TemplateCache) (k : TemplateKey) (v : String),
    c.lookup k = some v →
    (c.filter (fun e => e.1 != k)).length + 1 ≤ c.length := by
  intro c k v h
  induction c with
  | nil => simp [List.lookup] at h
  | cons e t ih =>
      obtain ⟨k1, v1⟩ := e
      by_cases hk : k = k1
      · have hbne : ((k1, v1).1 != k) = false := by
          simp [bne, hk]
        simp only [List.filter_cons, hbne, List.length_cons]
        exact Nat.succ_le_succ (List.length_filter_le _ _)
      · have hb : (k == k1) = false := by simp [hk]
        simp [List.lookup, hb] at h
        have hbne : ((k1, v1).1 != k) = true := by
          simp [bne_iff_ne]
          exact fun he => hk he.symm
        simp only [List.filter_cons, hbne, List.length_cons, if_true, cond_true]
        exact Nat.succ_le_succ (ih h)

/-- Claim C7 counterexample input: 129 distinct (filename, directory)
pairs, one more than the lru capacity. -/
def manyKeys : List TemplateKey := (List.range 129).map (fun i => (toString i, "d"))

set_option maxRecDepth 4000 in
/-- Claim C7 counterexample: the pair ("0", "d") is resolved first in the
trace, yet after the 128 later distinct pairs have been resolved its entry
has been evicted, and resolving it again does re-read storage. -/
theorem cache_eviction_rereads_storage :
    ("0", "d") ∈ manyKeys
    ∧ (read_sql_template (fun _ _ => "SELECT 1;")
        (runTrace (fun _ _ => "SELECT 1;") [] manyKeys) "0" "d").readStorage
      = true := by
  constructor
  · decide
  · decide

end Sqlight

namespace Sqlight

/-- Helper: looking up the key just pushed to the front of the memo hits. -/
theorem template_lookup_head (k : TemplateKey) (v : String) (t : TemplateCache) :
    ((k, v) :: t).lookup k = some v := by
  have hb : (k == k) = true := by simp
  simp [List.lookup, hb]

/-- Claim C7 amended: resolution of a (filename, directory) pair always
returns exactly the storage text of that pair (so repeated resolutions are
byte-identical), preserves the cache invariant, skips storage whenever the
pair is still memoised, and in particular an immediately repeated
resolution never reads storage.  Entries are, however, evicted in lru
order once more than 128 distinct pairs have been resolved. -/
theorem cached_read_spec (fs : String → Path → String) (c : TemplateCache)
    (filename : String) (template_path : Path) (hwf : cacheWF fs c) :
    (read_sql_template fs c filename template_path).text = fs filename template_path
    ∧ cacheWF fs (read_sql_template fs c filename template_path).cache
    ∧ ((filename, template_path) ∈ c.map Prod.fst →
        (read_sql_template fs c filename template_path).readStorage = false)
    ∧ (read_sql_template fs
        (read_sql_template fs c filename template_path).cache
        filename template_path).readStorage = false := by
  obtain ⟨hvals, hlen⟩ := hwf
  cases hl : c.lookup (filename, template_path) with
  | some v =>
      have hmem : ((filename, template_path), v) ∈ c :=
        template_lookup_mem c (filename, template_path) v hl
      have hv : v = fs filename template_path := hvals _ hmem
      refine ⟨?_, ⟨?_, ?_⟩, ?_, ?_⟩
      · simp [read_sql_template, hl, hv]
      · intro e he
        simp only [read_sql_template, hl] at he
        rcases List.mem_cons.mp he with he | he
        · rw [he]; exact hv
        · exact hvals _ (List.mem_of_mem_filter he)
      · simp only [read_sql_template, hl, List.length_cons]
        exact le_trans (filter_length_of_lookup c _ v hl) hlen
      · intro _
        simp [read_sql_template, hl]
      · simp only [read_sql_template, hl]
        rw [template_lookup_head]
  | none =>
      refine ⟨?_, ⟨?_, ?_⟩, ?_, ?_⟩
      · simp [read_sql_template, hl]
      · intro e he
        simp only [read_sql_template, hl] at he
        have he2 : e ∈ ((filename, template_path), fs filename template_path) :: c :=
          List.take_subset _ _ he
        rcases List.mem_cons.mp he2 with he2 | he2
        · rw [he2]
        · exact hvals _ he2
      · simp only [read_sql_template, hl]
        exact List.length_take_le _ _
      · intro hmem
        have := template_lookup_isSome c (filename, template_path) hmem
        rw [hl] at this
        simp at this
      · have hcons : (read_sql_template fs c filename template_path).cache
            = ((filename, template_path), fs filename template_path)
              :: c.take (_lru_maxsize - 1) := by
          simp [read_sql_template, hl, _lru_maxsize, List.take_succ_cons]
        rw [hcons]
        have hh := template_lookup_head (filename, template_path)
          (fs filename template_path) (c.take (_lru_maxsize - 1))
        simp [read_sql_template, hh]

/-- Witness for claim C7's amended theorem: starting from the empty memo,
reading a template returns the storage text, and an immediately repeated
read of the same pair does not touch storage. -/
theorem cached_read_spec_witness :
    (read_sql_template (fun _ _ => "SELECT 1;") [] "t.sql" "d").text = "SELECT 1;"
    ∧ (read_sql_template (fun _ _ => "SELECT 1;")
        (read_sql_template (fun _ _ => "SELECT 1;") [] "t.sql" "d").cache
        "t.sql" "d").readStorage = false :=
  ⟨(cached_read_spec (fun _ _ => "SELECT 1;") [] "t.sql" "d"
      ⟨fun e he => absurd he (List.not_mem_nil e), by norm_num [_lru_maxsize]⟩).1,
   (cached_read_spec (fun _ _ => "SELECT 1;") [] "t.sql" "d"
      ⟨fun e he => absurd he (List.not_mem_nil e), by norm_num [_lru_maxsize]⟩).2.2.2⟩

end Sqlight

namespace Sqlight

/-- Python dict assignment on an association list: assigning to an existing
key keeps the key's position and replaces its value; a new key is appended
at the end. -/
def dictInsert {α : Type} (d : List (String × α)) (k : String) (v : α) :
    List (String × α) :=
  if (d.lookup k).isSome then
    d.map (fun e => if e.1 = k then (k, v) else e)
  else d ++ [(k, v)]

/-- A Python dict comprehension over (key, value) pairs in order: fold the
pairs into an initially empty dict. -/
def pyDict {α : Type} (l : List (String × α)) : List (String × α) :=
  l.foldl (fun d kv => dictInsert d kv.1 kv.2) []

/-- Recursion of `dict_factory` over the description and the row in
lockstep: iterating `enumerate(cursor.description)` while indexing
`row[idx]`; a row shorter than the description raises IndexError
(modelled as `none`). -/
def dictFactoryGo {α : Type} (d : List (String × α)) :
    List String → List α → Option (List (String × α))
  | [], _ => some d
  | _ :: _, [] => none
  | c :: cs, v :: vs => dictFactoryGo (dictInsert d c v) cs vs

/-- `dict_factory(cursor, row)`: the comprehension
`{col[0]: row[idx] for idx, col in enumerate(cursor.description)}`, with
`cursor.description` modelled by its list of column names (`col[0]`). -/
def dict_factory {α : Type} (cols : List String) (row : List α) :
    Option (List (String × α)) :=
  dictFactoryGo [] cols row

/-- Helper: a key absent from the key list makes lookup fail. -/
theorem lookup_eq_none_of_not_mem {α : Type} (d : List (String × α)) (k : String)
    (h : k ∉ d.map Prod.fst) : d.lookup k = none := by
  induction d with
  | nil => rfl
  | cons e t ih =>
      obtain ⟨a, b⟩ := e
      simp only [List.map_cons, List.mem_cons, not_or] at h
      have hb : (k == a) = false := by simp [h.1]
      simp only [List.lookup, hb]
      exact ih h.2

/-- Helper: lookup distributes over append, preferring the left list. -/
theorem lookup_append {α : Type} (d e : List (String × α)) (k : String) :
    (d ++ e).lookup k
      = match d.lookup k with
        | some v => some v
        | none => e.lookup k := by
  induction d with
  | nil => simp [List.lookup]
  | cons x t ih =>
      obtain ⟨a, b⟩ := x
      by_cases hk : k = a
      · have hb : (k == a) = true := by simp [hk]
        simp [List.lookup, hb]
      · have hb : (k == a) = false := by simp [hk]
        simp [List.lookup, hb, ih]

/-- Helper: replacing the binding of key `k` keeps every other key's
binding. -/
theorem lookup_map_replace {α : Type} (t : List (String × α)) (k k2 : String) (v : α)
    (h : k2 ≠ k) :
    (t.map (fun e => if e.1 = k then (k, v) else e)).lookup k2 = t.lookup k2 := by
  induction t with
  | nil => rfl
  | cons x t ih =>
      obtain ⟨a, b⟩ := x
      simp only [List.map_cons]
      by_cases ha : a = k
      · rw [show (if (a, b).1 = k then (k, v) else (a, b)) = (k, v) from if_pos ha]
        have hb1 : (k2 == k) = false := by simp [h]
        have hb2 : (k2 == a) = false := by rw [ha]; simp [h]
        simp only [List.lookup, hb1, hb2]
        exact ih
      · rw [show (if (a, b).1 = k then (k, v) else (a, b)) = (a, b) from if_neg ha]
        by_cases hk2 : k2 = a
        · have hb : (k2 == a) = true := by simp [hk2]
          simp only [List.lookup, hb]
        · have hb : (k2 == a) = false := by simp [hk2]
          simp only [List.lookup, hb]
          exact ih

/-- Helper: replacing the binding of a present key `k` makes lookup of `k`
return the new value. -/
theorem lookup_map_replace_self {α : Type} (d : List (String × α)) (k : String) (v : α)
    (h : (d.lookup k).isSome) :
    (d.map (fun e => if e.1 = k then (k, v) else e)).lookup k = some v := by
  induction d with
  | nil => simp [List.lookup] at h
  | cons x t ih =>
      obtain ⟨a, b⟩ := x
      simp only [List.map_cons]
      by_cases ha : a = k
      · rw [show (if (a, b).1 = k then (k, v) else (a, b)) = (k, v) from if_pos ha]
        have hb : (k == k) = true := by simp
        simp only [List.lookup, hb]
      · rw [show (if (a, b).1 = k then (k, v) else (a, b)) = (a, b) from if_neg ha]
        have hka : k ≠ a := fun he => ha he.symm
        have hb : (k == a) = false := by simp [hka]
        simp only [List.lookup, hb] at h
        simp only [List.lookup, hb]
        exact ih h

/-- Helper: the Python dict assignment semantics of `dictInsert` at the
level of lookups: the assigned key now maps to the new value, all other
keys are untouched. -/
theorem lookup_dictInsert {α : Type} (d : List (String × α)) (k k2 : String) (v : α) :
    (dictInsert d k v).lookup k2 = if k2 = k then some v else d.lookup k2 := by
  by_cases hs : (d.lookup k).isSome
  · have hins : dictInsert d k v
        = d.map (fun e => if e.1 = k then (k, v) else e) := by
      simp [dictInsert, hs]
    rw [hins]
    by_cases hk2 : k2 = k
    · subst hk2
      rw [lookup_map_replace_self d k2 v hs, if_pos rfl]
    · rw [lookup_map_replace d k k2 v hk2, if_neg hk2]
  · have hn : d.lookup k = none := by
      cases hd : d.lookup k
      · rfl
      · rw [hd] at hs; simp at hs
    have hins : dictInsert d k v = d ++ [(k, v)] := by
      simp [dictInsert, hn]
    rw [hins, lookup_append]
    by_cases hk2 : k2 = k
    · subst hk2
      rw [hn, if_pos rfl]
      have hb : (k2 == k2) = true := by simp
      simp [List.lookup, hb]
    · rw [if_neg hk2]
      have hb : (k2 == k) = false := by simp [hk2]
      cases hd2 : d.lookup k2 <;> simp [hd2, List.lookup, hb]

/-- Helper: folding pairs with all-distinct keys, none of which collides
with the accumulator, just appends them in order. -/
theorem pyDict_append_of_nodup {α : Type} :
    ∀ (l d : List (String × α)),
    (l.map Prod.fst).Nodup →
    (∀ k, k ∈ l.map Prod.fst → d.lookup k = none) →
    l.foldl (fun d kv => dictInsert d kv.1 kv.2) d = d ++ l := by
  intro l
  induction l with
  | nil => intro d _ _; simp
  | cons x t ih =>
      intro d hnd hdis
      obtain ⟨k1, v1⟩ := x
      simp only [List.map_cons, List.nodup_cons] at hnd
      have hd1 : d.lookup k1 = none := hdis k1 (by simp)
      have hins : dictInsert d k1 v1 = d ++ [(k1, v1)] := by
        simp [dictInsert, hd1]
      have hdis2 : ∀ k, k ∈ t.map Prod.fst → (d ++ [(k1, v1)]).lookup k = none := by
        intro k hk
        rw [lookup_append, hdis k (by simp [hk])]
        have hk1 : k ≠ k1 := fun he => hnd.1 (he ▸ hk)
        have hb : (k == k1) = false := by simp [hk1]
        simp [List.lookup, hb]
      simp only [List.foldl_cons, hins]
      rw [ih (d ++ [(k1, v1)]) hnd.2 hdis2]
      simp

/-- Helper: a lookup in the folded dict returns the binding of the LAST
pair carrying that key (the reversed input's first binding), falling back
to the accumulator. -/
theorem lookup_pyDict_from {α : Type} :
    ∀ (l d : List (String × α)) (k : String),
    (l.foldl (fun d kv => dictInsert d kv.1 kv.2) d).lookup k
      = match l.reverse.lookup k with
        | some v => some v
        | none => d.lookup k := by
  intro l
  induction l with
  | nil => intro d k; simp
  | cons x t ih =>
      intro d k
      obtain ⟨k1, v1⟩ := x
      simp only [List.foldl_cons]
      rw [ih]
      simp only [List.reverse_cons]
      rw [lookup_append]
      cases ht : t.reverse.lookup k with
      | some v => simp
      | none =>
          rw [lookup_dictInsert]
          by_cases hk : k = k1
          · subst hk
            have hb : (k == k) = true := by simp
            simp [List.lookup, hb]
          · have hb : (k == k1) = false := by simp [hk]
            simp [List.lookup, hb, hk]

/-- Helper: iterating the description against the row succeeds exactly as
the fold when the lengths agree. -/
theorem dictFactoryGo_eq {α : Type} :
    ∀ (cols : List String) (row : List α) (d : List (String × α)),
    cols.length = row.length →
    dictFactoryGo d cols row
      = some ((cols.zip row).foldl (fun d kv => dictInsert d kv.1 kv.2) d) := by
  intro cols
  induction cols with
  | nil => intro row d h; simp [dictFactoryGo]
  | cons c cs ih =>
      intro row d h
      cases row with
      | nil => simp at h
      | cons v vs =>
          simp only [List.length_cons, Nat.succ.injEq] at h
          simp [dictFactoryGo, ih vs _ h]

/-- Claim C9: for a column-name list and a row of equal length,
`dict_factory` produces the Python dict of the name/value pairs in column
order; when the names are distinct that mapping is literally the pairs in
column order (insertion order = column order, each name at its column's
value); and in general each name maps to the value of its LAST column —
later duplicate columns overwrite earlier ones. -/
theorem dict_factory_spec {α : Type} (cols : List String) (row : List α)
    (hlen : cols.length = row.length) :
    dict_factory cols row = some (pyDict (cols.zip row))
    ∧ (cols.Nodup → pyDict (cols.zip row) = cols.zip row)
    ∧ (∀ name, (pyDict (cols.zip row)).lookup name
        = ((cols.zip row).reverse).lookup name) := by
  refine ⟨?_, ?_, ?_⟩
  · exact dictFactoryGo_eq cols row [] hlen
  · intro hnd
    have hkeys : (cols.zip row).map Prod.fst = cols :=
      List.map_fst_zip cols row (le_of_eq hlen)
    have h := pyDict_append_of_nodup (cols.zip row) []
      (by rw [hkeys]; exact hnd) (fun k _ => rfl)
    simpa [pyDict] using h
  · intro name
    show ((cols.zip row).foldl (fun d kv => dictInsert d kv.1 kv.2) []).lookup name = _
    rw [lookup_pyDict_from]
    cases h : (cols.zip row).reverse.lookup name with
    | some v => simp
    | none => simp [List.lookup]

/-- Witness for claim C9 at the columns and row of the repository's test
table. -/
theorem dict_factory_spec_witness :
    dict_factory ["id", "name"] ([1, 2] : List Nat)
      = some (pyDict (["id", "name"].zip ([1, 2] : List Nat)))
    ∧ pyDict (["id", "name"].zip ([1, 2] : List Nat))
      = ["id", "name"].zip ([1, 2] : List Nat) :=
  ⟨(dict_factory_spec ["id", "name"] ([1, 2] : List Nat) rfl).1,
   (dict_factory_spec ["id", "name"] ([1, 2] : List Nat) rfl).2.1 (by decide)⟩

end Sqlight
